import Mathlib

/-!
Verification of the Intelligent Query Router
(`src/rag_modules/intelligent_query_router.py`) of the graph-rag repository.

The Python module is shallowly embedded below:
* Python floats are modelled as rationals (`ℚ`); every score in the router is
  a ratio of small integers, so this is exact.
* A Python function that can raise is modelled as returning `Except`;
  catching an exception corresponds to matching on `.error`.
* The remote classification call (`llm_client.chat.completions.create`
  followed by `json.loads` and field extraction) is modelled as an
  `Except Unit RawAnalysis` argument: the transport/JSON stage either fails
  or yields a record of optional fields, exactly the values that
  `result.get(...)` can observe.
* `Document` metadata (a Python dict) is modelled as an association list with
  in-place update semantics (`setKey`).
-/

set_option autoImplicit false

namespace GraphRag

/-- Substring test on character lists: does the haystack start with `pat`?
Models the anchored part of Python's `in` operator on strings. -/
def charsHasPre : List Char → List Char → Bool
  | [], _ => true
  | _ :: _, [] => false
  | c :: cs, d :: ds => c == d && charsHasPre cs ds

/-- Full substring test: `charsContains pat hay = true` iff `pat` occurs contiguously in `hay`. -/
def charsContains (pat : List Char) : List Char → Bool
  | [] => charsHasPre pat []
  | c :: t => charsHasPre pat (c :: t) || charsContains pat t

/-- Python's `kw in query` on strings (contiguous substring of code points). -/
def strContains (query kw : String) : Bool :=
  charsContains kw.data query.data

/-- Python's `len(query.split())`: number of maximal nonempty runs between
whitespace. -/
def pySplitLen (query : String) : Nat :=
  ((query.split Char.isWhitespace).filter (fun s => s ≠ "")).length

/-- The `SearchStrategy` enum of the router (three members). -/
inductive SearchStrategy where
  | hybrid_traditional
  | graph_rag
  | combined
deriving DecidableEq, Repr

/-- Value string (`.value`) of the Python enum member. -/
def SearchStrategy.value : SearchStrategy → String
  | .hybrid_traditional => "hybrid_traditional"
  | .graph_rag => "graph_rag"
  | .combined => "combined"

/-- The `SearchStrategy(s)` enum constructor call: raises `ValueError` on a
string that is not one of the three member values. -/
def SearchStrategy.fromValue (s : String) : Except Unit SearchStrategy :=
  if s = "hybrid_traditional" then .ok .hybrid_traditional
  else if s = "graph_rag" then .ok .graph_rag
  else if s = "combined" then .ok .combined
  else .error ()

/-- The `QueryAnalysis` dataclass. -/
structure QueryAnalysis where
  query_complexity : ℚ
  relationship_intensity : ℚ
  reasoning_required : Bool
  entity_count : Nat
  recommended_strategy : SearchStrategy
  confidence : ℚ
  reasoning : String
deriving DecidableEq, Repr

/-- Keyword list `complexity_keywords` of `_rule_based_analysis`. -/
def complexity_keywords : List String :=
  ["为什么", "如何", "关系", "影响", "原因", "比较", "区别"]

/-- Keyword list `relation_keywords` of `_rule_based_analysis`. -/
def relation_keywords : List String :=
  ["配", "搭配", "组合", "相关", "联系", "连接"]

/-- Embedding of `IntelligentQueryRouterModule._rule_based_analysis`: deterministic
keyword-based fallback classifier. -/
def rule_based_analysis (query : String) : QueryAnalysis :=
  let complexity : ℚ :=
    (complexity_keywords.countP (fun kw => strContains query kw) : ℚ) /
      (complexity_keywords.length : ℚ)
  let relation_intensity : ℚ :=
    (relation_keywords.countP (fun kw => strContains query kw) : ℚ) /
      (relation_keywords.length : ℚ)
  let strategy :=
    if complexity > 0.3 ∨ relation_intensity > 0.3 then
      SearchStrategy.graph_rag
    else
      SearchStrategy.hybrid_traditional
  { query_complexity := complexity
    relationship_intensity := relation_intensity
    reasoning_required := decide (complexity > 0.3)
    entity_count := pySplitLen query
    recommended_strategy := strategy
    confidence := 0.6
    reasoning := "基于规则的简单分析" }

/-- Metadata value stored in a document's metadata dict: the router stores
strings (strategy identifiers, sources) and numbers (scores). -/
inductive MetaVal where
  | str (s : String)
  | num (q : ℚ)
deriving DecidableEq, Repr

/-- A langchain `Document`: opaque content plus a metadata dict, modelled as
an association list with at most one entry per key. -/
structure Document where
  page_content : String
  metadata : List (String × MetaVal)
deriving DecidableEq, Repr

/-- Python `d[k] = v` on a dict modelled as an association list: replace the
value in place if the key is present, append otherwise. -/
def setKey (m : List (String × MetaVal)) (k : String) (v : MetaVal) :
    List (String × MetaVal) :=
  match m with
  | [] => [(k, v)]
  | (k', v') :: rest => if k' = k then (k, v) :: rest else (k', v') :: setKey rest k v

/-- Python `d.get(k)` on a dict modelled as an association list. -/
def getKey (m : List (String × MetaVal)) (k : String) : Option MetaVal :=
  match m with
  | [] => none
  | (k', v') :: rest => if k' = k then some v' else getKey rest k

/-- The raw fields the router reads from the parsed JSON reply of the
classification service; `none` models a field absent from the reply. -/
structure RawAnalysis where
  query_complexity : Option ℚ
  relationship_intensity : Option ℚ
  reasoning_required : Option Bool
  entity_count : Option Nat
  recommended_strategy : Option String
  confidence : Option ℚ
  reasoning : Option String

/-- Body of the `try` block of `analyze_query` after a successful transport
and JSON parse: apply the `result.get(..., default)` defaults and call the
`SearchStrategy` constructor, which can still raise on an unknown strategy
string. -/
def parse_analysis (raw : RawAnalysis) : Except Unit QueryAnalysis :=
  match SearchStrategy.fromValue (raw.recommended_strategy.getD "hybrid_traditional") with
  | .error e => .error e
  | .ok strat =>
    .ok { query_complexity := raw.query_complexity.getD 0.5
          relationship_intensity := raw.relationship_intensity.getD 0.5
          reasoning_required := raw.reasoning_required.getD false
          entity_count := raw.entity_count.getD 1
          recommended_strategy := strat
          confidence := raw.confidence.getD 0.5
          reasoning := raw.reasoning.getD "默认分析" }

/-- Embedding of `IntelligentQueryRouterModule.analyze_query`.  `remote` is the outcome of
the classification round-trip (`.error` models a transport error or
`json.loads` failure).  The `except` branch of the source calls
`self._rule_based_analysis(query)` but does not `return` it, so the function
yields Python `None`, modelled as `Option.none`. -/
def analyze_query (remote : Except Unit RawAnalysis) (query : String) :
    Option QueryAnalysis :=
  match remote.bind parse_analysis with
  | .ok analysis => some analysis
  | .error _ =>
    let _discarded := rule_based_analysis query
    none

/-- A retrieval engine: `hybrid_search` / `graph_rag_search`; may raise. -/
def Engine : Type :=
  String → Nat → Except Unit (List Document)

/-- The `route_stats` dict of the router. -/
structure RouteStats where
  traditional_count : Nat
  graph_rag_count : Nat
  combined_count : Nat
  total_queries : Nat
deriving DecidableEq, Repr

/-- The statistics as initialized in `__init__`. -/
def init_route_stats : RouteStats :=
  { traditional_count := 0, graph_rag_count := 0, combined_count := 0, total_queries := 0 }

/-- Embedding of `IntelligentQueryRouterModule._update_route_stats`. -/
def update_route_stats (strategy : SearchStrategy) (s : RouteStats) : RouteStats :=
  let s := { s with total_queries := s.total_queries + 1 }
  match strategy with
  | .hybrid_traditional => { s with traditional_count := s.traditional_count + 1 }
  | .graph_rag => { s with graph_rag_count := s.graph_rag_count + 1 }
  | .combined => { s with combined_count := s.combined_count + 1 }

/-- The dedup fingerprint: `hash(doc.page_content[:100])` — first 100 code
points of the content (the hash is modelled as the prefix itself). -/
def content_hash (doc : Document) : String :=
  String.mk (doc.page_content.data.take 100)

/-- The assignment `doc.metadata["search_source"] = src` performed on insertion. -/
def tagSource (src : String) (doc : Document) : Document :=
  { doc with metadata := setKey doc.metadata "search_source" (.str src) }

/-- One body of the merge loop of `_combined_search`: look at the document at
the current index of one list (if present), drop it when its fingerprint was
seen, otherwise record the fingerprint, tag the source and append. -/
def mergeStep (src : String) (o : Option Document)
    (st : List String × List Document) : List String × List Document :=
  match o with
  | none => st
  | some doc =>
    if content_hash doc ∈ st.1 then st
    else (content_hash doc :: st.1, st.2 ++ [tagSource src doc])

/-- Tail phase of the merge loop of `_combined_search`: indices at which the
graph list is exhausted, so only traditional documents are considered. -/
def mergeTrad : List Document → List String × List Document → List Document
  | [], st => st.2
  | t :: ts, st => mergeTrad ts (mergeStep "traditional" (some t) st)

/-- The `for i in range(max_len)` merge loop of `_combined_search`, rendered
as simultaneous recursion on the two lists: at each index the graph document
is considered first, then the traditional one.  `st` carries
(`seen_contents`, `combined_docs`). -/
def mergeAll : List Document → List Document → List String × List Document → List Document
  | [], ts, st => mergeTrad ts st
  | g :: gs, ts, st =>
    mergeAll gs ts.tail (mergeStep "traditional" ts.head? (mergeStep "graph_rag" (some g) st))

/-- The `try`/`except` wrapper around one engine call inside
`_combined_search`: an engine failure is caught and contributes `[]`. -/
def engineResult (r : Except Unit (List Document)) : List Document :=
  match r with
  | .ok docs => docs
  | .error _ => []

/-- Embedding of `IntelligentQueryRouterModule._combined_search`.  Each engine failure is
caught per-engine and contributes `[]`; both results are merged round-robin
graph-first with dedup, then truncated to `top_k`. -/
def combined_search (traditional_retrieval graph_rag_retrieval : Engine)
    (query : String) (top_k : Nat) : List Document :=
  let traditional_k := max 1 (top_k / 2)
  let graph_k := top_k - traditional_k
  let traditional_docs := engineResult (traditional_retrieval query traditional_k)
  let graph_docs := engineResult (graph_rag_retrieval query graph_k)
  (mergeAll graph_docs traditional_docs ([], [])).take top_k

/-- Embedding of `IntelligentQueryRouterModule._post_process_results`: stamp every passed
document with the routing metadata (dict `update` with three keys). -/
def post_process_results (documents : List Document) (analysis : QueryAnalysis) :
    List Document :=
  documents.map fun doc =>
    let m1 := setKey doc.metadata "route_strategy" (.str analysis.recommended_strategy.value)
    let m2 := setKey m1 "query_complexity" (.num analysis.query_complexity)
    let m3 := setKey m2 "route_confidence" (.num analysis.confidence)
    { doc with metadata := m3 }

/-- Exceptions that can escape `route_query`. -/
inductive RouteError where
  /-- Case where `analyze_query` returned `None` and `None.recommended_strategy` raised
  `AttributeError` (line 184 of the source, before the stats update). -/
  | attributeError
  /-- both the dispatched path and the traditional fallback raised. -/
  | engineError
deriving DecidableEq, Repr

/-- Embedding of `IntelligentQueryRouterModule.route_query`.  Returns the outcome (normal
return or escaped exception) paired with the router statistics after the
call. -/
def route_query (remote : Except Unit RawAnalysis)
    (traditional_retrieval graph_rag_retrieval : Engine)
    (query : String) (top_k : Nat) (stats : RouteStats) :
    Except RouteError (List Document × QueryAnalysis) × RouteStats :=
  match analyze_query remote query with
  | none => (.error .attributeError, stats)
  | some analysis =>
    let stats := update_route_stats analysis.recommended_strategy stats
    let attempt : Except Unit (List Document) :=
      match analysis.recommended_strategy with
      | .hybrid_traditional => traditional_retrieval query top_k
      | .graph_rag => graph_rag_retrieval query top_k
      | .combined =>
        .ok (combined_search traditional_retrieval graph_rag_retrieval query top_k)
    match attempt with
    | .ok documents => (.ok (post_process_results documents analysis, analysis), stats)
    | .error _ =>
      match traditional_retrieval query top_k with
      | .ok documents => (.ok (documents, analysis), stats)
      | .error _ => (.error .engineError, stats)

/-- Round-robin interleaving as the spec words it: for index `i` from `0` to
`max(len(graphResults), len(traditionalResults)) − 1`, first consider
`graphResults[i]` (if present), then `traditionalResults[i]` (if present). -/
def roundRobinMerge (graphResults traditionalResults : List Document) : List Document :=
  (List.range (max graphResults.length traditionalResults.length)).flatMap
    (fun i => graphResults[i]?.toList ++ traditionalResults[i]?.toList)

/-- Keep-first deduplication by content fingerprint, as the spec words it:
the first passage to arrive at a fingerprint is kept, later passages with the
same fingerprint are dropped. -/
def dedupByFirst100 : List Document → List String → List Document
  | [], _ => []
  | d :: ds, seen =>
    if content_hash d ∈ seen then dedupByFirst100 ds seen
    else d :: dedupByFirst100 ds (content_hash d :: seen)

/-! ### Association-list (metadata dict) lemmas -/

theorem getKey_setKey_self (m : List (String × MetaVal)) (k : String) (v : MetaVal) :
    getKey (setKey m k v) k = some v := by
  induction m with
  | nil => simp [setKey, getKey]
  | cons p rest ih =>
    obtain ⟨k', v'⟩ := p
    by_cases h : k' = k
    · simp [setKey, getKey, h]
    · simp [setKey, getKey, h, ih]

theorem getKey_setKey_other (m : List (String × MetaVal)) (k k' : String) (v : MetaVal)
    (h : k' ≠ k) : getKey (setKey m k v) k' = getKey m k' := by
  induction m with
  | nil => simp [setKey, getKey, Ne.symm h]
  | cons p rest ih =>
    obtain ⟨a, b⟩ := p
    by_cases ha : a = k
    · subst ha
      simp [setKey, getKey, Ne.symm h]
    · by_cases ha' : a = k'
      · simp [setKey, getKey, ha, ha', h]
      · simp [setKey, getKey, ha, ha', ih]

/-- Tagging the source leaves the content, hence the fingerprint, unchanged. -/
theorem content_hash_tagSource (s : String) (d : Document) :
    content_hash (tagSource s d) = content_hash d := rfl

theorem getKey_tagSource (s : String) (d : Document) :
    getKey (tagSource s d).metadata "search_source" = some (.str s) :=
  getKey_setKey_self d.metadata "search_source" (.str s)

/-! ### Recurrences for the spec-side round-robin interleaving -/

theorem range_flatMap_succ {α : Type} (f : Nat → List α) (n : Nat) :
    (List.range (n + 1)).flatMap f = f 0 ++ (List.range n).flatMap (fun i => f (i + 1)) := by
  rw [List.range_succ_eq_map, List.flatMap_cons, List.flatMap_map]

theorem rrm_cons_cons (a b : Document) (g t : List Document) :
    roundRobinMerge (a :: g) (b :: t) = a :: b :: roundRobinMerge g t := by
  unfold roundRobinMerge
  rw [List.length_cons, List.length_cons, Nat.succ_max_succ, range_flatMap_succ]
  simp

theorem rrm_cons_nil (a : Document) (g : List Document) :
    roundRobinMerge (a :: g) [] = a :: roundRobinMerge g [] := by
  unfold roundRobinMerge
  rw [List.length_cons, List.length_nil]
  have h : max (g.length + 1) 0 = max g.length 0 + 1 := by omega
  rw [h, range_flatMap_succ]
  simp

theorem rrm_nil_cons (b : Document) (t : List Document) :
    roundRobinMerge [] (b :: t) = b :: roundRobinMerge [] t := by
  unfold roundRobinMerge
  rw [List.length_cons, List.length_nil]
  have h : max 0 (t.length + 1) = max 0 t.length + 1 := by omega
  rw [h, range_flatMap_succ]
  simp

theorem rrm_nil_left : ∀ t : List Document, roundRobinMerge [] t = t
  | [] => rfl
  | b :: ts => by rw [rrm_nil_cons, rrm_nil_left ts]

theorem rrm_nil_right : ∀ g : List Document, roundRobinMerge g [] = g
  | [] => rfl
  | a :: gs => by rw [rrm_cons_nil, rrm_nil_right gs]

/-- The spec-side round-robin interleaving is a permutation of the two lists
appended: the merge reorders but neither drops nor duplicates. -/
theorem rrm_perm : ∀ g t : List Document, (roundRobinMerge g t).Perm (g ++ t) := by
  intro g
  induction g with
  | nil =>
    intro t
    rw [rrm_nil_left]
    simp
  | cons a gs ih =>
    intro t
    cases t with
    | nil =>
      rw [rrm_cons_nil]
      simpa using (ih []).cons a
    | cons b ts =>
      rw [rrm_cons_cons]
      refine ((((ih ts).cons b).cons a)).trans ?_
      exact (List.perm_middle.symm.cons a)

/-! ### Keep-first deduplication lemmas -/

theorem mem_of_mem_dedup {x : Document} :
    ∀ (l : List Document) (seen : List String), x ∈ dedupByFirst100 l seen → x ∈ l := by
  intro l
  induction l with
  | nil => intro seen h; simp [dedupByFirst100] at h
  | cons d ds ih =>
    intro seen h
    rw [dedupByFirst100] at h
    split at h
    · exact List.mem_cons_of_mem d (ih _ h)
    · rcases List.mem_cons.mp h with h' | h'
      · exact h' ▸ List.mem_cons_self d ds
      · exact List.mem_cons_of_mem d (ih _ h')

/-- When all fingerprints are pairwise distinct and none was seen yet,
keep-first deduplication keeps everything. -/
theorem dedup_eq_self :
    ∀ (l : List Document) (seen : List String),
      (l.map content_hash).Nodup → (∀ x ∈ l, content_hash x ∉ seen) →
      dedupByFirst100 l seen = l := by
  intro l
  induction l with
  | nil => intro seen _ _; rfl
  | cons d ds ih =>
    intro seen hn hs
    rw [dedupByFirst100, if_neg (hs d (List.mem_cons_self d ds))]
    rw [List.map_cons, List.nodup_cons] at hn
    refine congrArg (d :: ·) (ih _ hn.2 ?_)
    intro x hx
    rw [List.mem_cons]
    push_neg
    refine ⟨?_, hs x (List.mem_cons_of_mem d hx)⟩
    intro hexact
    exact hn.1 (hexact ▸ List.mem_map_of_mem content_hash hx)

/-! ### The merge loop computes round-robin interleaving plus keep-first dedup -/

theorem mergeTrad_eq (ts : List Document) :
    ∀ st : List String × List Document,
      mergeTrad ts st = st.2 ++ dedupByFirst100 (ts.map (tagSource "traditional")) st.1 := by
  induction ts with
  | nil => intro st; simp [mergeTrad, dedupByFirst100]
  | cons t ts ih =>
    intro st
    rw [mergeTrad, ih, List.map_cons, dedupByFirst100]
    by_cases h : content_hash t ∈ st.1
    · simp [mergeStep, content_hash_tagSource, h]
    · simp [mergeStep, content_hash_tagSource, h]

theorem mergeAll_eq (g : List Document) :
    ∀ (t : List Document) (st : List String × List Document),
      mergeAll g t st = st.2 ++
        dedupByFirst100
          (roundRobinMerge (g.map (tagSource "graph_rag")) (t.map (tagSource "traditional")))
          st.1 := by
  induction g with
  | nil =>
    intro t st
    rw [mergeAll, mergeTrad_eq, List.map_nil, rrm_nil_left]
  | cons a gs ih =>
    intro t st
    cases t with
    | nil =>
      rw [mergeAll, ih, List.map_cons, List.map_nil, rrm_cons_nil, dedupByFirst100]
      by_cases h : content_hash a ∈ st.1
      · simp [mergeStep, content_hash_tagSource, h]
      · simp [mergeStep, content_hash_tagSource, h]
    | cons b ts =>
      rw [mergeAll, ih, List.map_cons, List.map_cons, rrm_cons_cons]
      by_cases h1 : content_hash a ∈ st.1
      · by_cases h2 : content_hash b ∈ st.1
        · simp [mergeStep, dedupByFirst100, content_hash_tagSource, h1, h2]
        · simp [mergeStep, dedupByFirst100, content_hash_tagSource, h1, h2]
      · by_cases h2 : content_hash b = content_hash a ∨ content_hash b ∈ st.1
        · simp [mergeStep, dedupByFirst100, content_hash_tagSource, h1, List.mem_cons, h2]
        · simp [mergeStep, dedupByFirst100, content_hash_tagSource, h1, List.mem_cons, h2]

/-! ### Corollaries about `combined_search` -/

theorem combined_search_def (T G : Engine) (q : String) (k : Nat) :
    combined_search T G q k =
      (mergeAll (engineResult (G q (k - max 1 (k / 2))))
        (engineResult (T q (max 1 (k / 2)))) ([], [])).take k := rfl

/-- Accessor forms of `rule_based_analysis`, read off the definition. -/
theorem rba_complexity_def (q : String) :
    (rule_based_analysis q).query_complexity =
      ((complexity_keywords.countP fun kw => strContains q kw : Nat) : ℚ) /
        (complexity_keywords.length : ℚ) := rfl

theorem rba_relation_def (q : String) :
    (rule_based_analysis q).relationship_intensity =
      ((relation_keywords.countP fun kw => strContains q kw : Nat) : ℚ) /
        (relation_keywords.length : ℚ) := rfl

theorem rba_strategy_def (q : String) :
    (rule_based_analysis q).recommended_strategy =
      if (rule_based_analysis q).query_complexity > 0.3 ∨
          (rule_based_analysis q).relationship_intensity > 0.3 then
        SearchStrategy.graph_rag
      else SearchStrategy.hybrid_traditional := rfl

/-- Every document of the truncated merge output carries a `search_source`
tag naming the engine it came from. -/
theorem mem_combined_sources (g t : List Document) (k : Nat) (d : Document)
    (hd : d ∈ (mergeAll g t ([], [])).take k) :
    getKey d.metadata "search_source" = some (.str "graph_rag") ∨
    getKey d.metadata "search_source" = some (.str "traditional") := by
  have h1 : d ∈ mergeAll g t ([], []) := List.take_subset k _ hd
  rw [mergeAll_eq] at h1
  simp only [List.nil_append] at h1
  have h2 := mem_of_mem_dedup _ _ h1
  have h3 := ((rrm_perm _ _).mem_iff).mp h2
  rcases List.mem_append.mp h3 with h4 | h4
  · rcases List.mem_map.mp h4 with ⟨x, _, rfl⟩
    exact Or.inl (getKey_tagSource _ x)
  · rcases List.mem_map.mp h4 with ⟨x, _, rfl⟩
    exact Or.inr (getKey_tagSource _ x)

/-! ### Claim theorems -/

/-- C1: the spec claims that on any failure of the remote classification
call, `analyze_query` returns the rule-based fallback `QueryAnalysis` with
confidence 0.6.  In the source the `except` branch computes
`self._rule_based_analysis(query)` but does not `return` it, so
`analyze_query` actually returns `None` — while the fallback it discards
does carry confidence 0.6 and the rule-based rationale. -/
theorem analyze_query_returns_none_on_failure
    (remote : Except Unit RawAnalysis) (query : String)
    (h : remote.bind parse_analysis = .error ()) :
    analyze_query remote query = none ∧
    (rule_based_analysis query).confidence = 0.6 ∧
    (rule_based_analysis query).reasoning = "基于规则的简单分析" := by
  refine ⟨?_, rfl, rfl⟩
  simp [analyze_query, h]

/-- C1 witness: a transport error on a concrete query. -/
theorem analyze_query_returns_none_on_failure_witness :
    (Except.error () : Except Unit RawAnalysis).bind parse_analysis = .error () ∧
    (analyze_query (.error ()) "为什么川菜和花椒有关系" = none ∧
     (rule_based_analysis "为什么川菜和花椒有关系").confidence = 0.6 ∧
     (rule_based_analysis "为什么川菜和花椒有关系").reasoning = "基于规则的简单分析") :=
  ⟨rfl, analyze_query_returns_none_on_failure _ _ rfl⟩

/-- C2: the spec claims a classification failure is never surfaced to the
caller of `route_query`.  In the source, `analyze_query` returns `None` on
classification failure and `route_query` then evaluates
`analysis.recommended_strategy` (line 184), raising `AttributeError`
regardless of how healthy the two engines are, with the statistics
untouched. -/
theorem route_query_raises_on_classification_failure
    (traditional_retrieval graph_rag_retrieval : Engine)
    (query : String) (top_k : Nat) (stats : RouteStats) :
    route_query (.error ()) traditional_retrieval graph_rag_retrieval query top_k stats
      = (.error .attributeError, stats) := rfl

/-- C3 counterexample: the query "为什么关系" contains both keywords, its
complexity score is exactly 2/7, which is NOT greater than 0.3, and the
rule-based fallback recommends the traditional strategy, not GraphRag. -/
theorem rule_fallback_two_keywords_counterexample :
    strContains "为什么关系" "为什么" = true ∧
    strContains "为什么关系" "关系" = true ∧
    (rule_based_analysis "为什么关系").query_complexity = 2 / 7 ∧
    ¬((2 : ℚ) / 7 > 0.3) ∧
    (rule_based_analysis "为什么关系").recommended_strategy
      = SearchStrategy.hybrid_traditional := by
  have h1 : complexity_keywords.countP (fun kw => strContains "为什么关系" kw) = 2 := by decide
  have h2 : relation_keywords.countP (fun kw => strContains "为什么关系" kw) = 0 := by decide
  refine ⟨by decide, by decide, ?_, by norm_num, ?_⟩
  · rw [rba_complexity_def, h1]
    norm_num [complexity_keywords]
  · rw [rba_strategy_def, rba_complexity_def, rba_relation_def, h1, h2]
    norm_num [complexity_keywords, relation_keywords]

/-- C3 amended: any query containing both "为什么" and "关系" has complexity
score at least 2/7, but 2/7 does not exceed the 0.3 threshold; GraphRag is
recommended exactly when one of the two scores exceeds 0.3. -/
theorem rule_fallback_two_keywords_amended (query : String)
    (h1 : strContains query "为什么" = true) (h2 : strContains query "关系" = true) :
    (2 : ℚ) / 7 ≤ (rule_based_analysis query).query_complexity ∧
    ((rule_based_analysis query).recommended_strategy = SearchStrategy.graph_rag ↔
      ((rule_based_analysis query).query_complexity > 0.3 ∨
       (rule_based_analysis query).relationship_intensity > 0.3)) := by
  constructor
  · have hcount : 2 ≤ complexity_keywords.countP (fun kw => strContains query kw) := by
      simp [complexity_keywords, List.countP_cons, h1, h2]
      split_ifs <;> omega
    have h2c : (2 : ℚ) ≤
        ((complexity_keywords.countP fun kw => strContains query kw : Nat) : ℚ) := by
      exact_mod_cast hcount
    rw [rba_complexity_def]
    have hlen : ((complexity_keywords.length : Nat) : ℚ) = 7 := by
      norm_num [complexity_keywords]
    rw [hlen]
    linarith
  · rw [rba_strategy_def]
    split_ifs with hcond
    · simp [hcond]
    · simp [hcond]

/-- C3 amended witness: "为什么关系" contains both keywords. -/
theorem rule_fallback_two_keywords_amended_witness :
    strContains "为什么关系" "为什么" = true ∧
    strContains "为什么关系" "关系" = true ∧
    ((2 : ℚ) / 7 ≤ (rule_based_analysis "为什么关系").query_complexity ∧
     ((rule_based_analysis "为什么关系").recommended_strategy = SearchStrategy.graph_rag ↔
       ((rule_based_analysis "为什么关系").query_complexity > 0.3 ∨
        (rule_based_analysis "为什么关系").relationship_intensity > 0.3))) :=
  ⟨by decide, by decide, rule_fallback_two_keywords_amended _ (by decide) (by decide)⟩

/-- C4: when all fingerprints are pairwise distinct, `_combined_search` on
the two engine result lists is exactly the spec's round-robin graph-first
interleaving (with source tags), truncated to `top_k`. -/
theorem combined_search_round_robin_of_nodup (g t : List Document) (query : String)
    (top_k : Nat) (h : ((g ++ t).map content_hash).Nodup) :
    combined_search (fun _ _ => .ok t) (fun _ _ => .ok g) query top_k =
      (roundRobinMerge (g.map (tagSource "graph_rag"))
        (t.map (tagSource "traditional"))).take top_k := by
  have key : ∀ (s : String) (l : List Document),
      (l.map (tagSource s)).map content_hash = l.map content_hash := by
    intro s l
    rw [List.map_map]
    exact List.map_congr_left (fun a _ => rfl)
  rw [combined_search_def, mergeAll_eq]
  simp only [engineResult, List.nil_append]
  congr 1
  apply dedup_eq_self
  · have hperm :
        ((roundRobinMerge (g.map (tagSource "graph_rag"))
          (t.map (tagSource "traditional"))).map content_hash).Perm
          ((g.map (tagSource "graph_rag") ++ t.map (tagSource "traditional")).map
            content_hash) :=
      (rrm_perm _ _).map _
    rw [hperm.nodup_iff, List.map_append, key, key]
    rw [List.map_append] at h
    exact h
  · intro x _
    simp

/-- C4 witness: graph engine returns 3 passages, traditional returns 1, no
duplicate prefixes, `k = 4` — output has length 4 in the order
[graph0, trad0, graph1, graph2]. -/
theorem combined_search_round_robin_of_nodup_witness :
    (((([⟨"graph0", []⟩, ⟨"graph1", []⟩, ⟨"graph2", []⟩] : List Document) ++
        ([⟨"trad0", []⟩] : List Document)).map content_hash).Nodup) ∧
    combined_search (fun _ _ => .ok [⟨"trad0", []⟩])
        (fun _ _ => .ok [⟨"graph0", []⟩, ⟨"graph1", []⟩, ⟨"graph2", []⟩]) "查询" 4 =
      [⟨"graph0", [("search_source", .str "graph_rag")]⟩,
       ⟨"trad0", [("search_source", .str "traditional")]⟩,
       ⟨"graph1", [("search_source", .str "graph_rag")]⟩,
       ⟨"graph2", [("search_source", .str "graph_rag")]⟩] := by
  constructor
  · decide
  · rw [combined_search_round_robin_of_nodup _ _ _ _ (by decide)]
    decide

/-- C5: `_combined_search` equals keep-first deduplication by
first-100-character fingerprint applied to the graph-first round-robin
interleaving of the two (source-tagged) result lists, truncated to `top_k`:
two passages sharing a fingerprint collapse to the first one in scan order,
tagged with the source of the list it came from. -/
theorem combined_search_dedups_by_first100 (g t : List Document)
    (query : String) (top_k : Nat) :
    combined_search (fun _ _ => .ok t) (fun _ _ => .ok g) query top_k =
      (dedupByFirst100
        (roundRobinMerge (g.map (tagSource "graph_rag"))
          (t.map (tagSource "traditional"))) []).take top_k := by
  rw [combined_search_def, mergeAll_eq]
  simp [engineResult]

/-- C6: for `k ≥ 1`, `_combined_search` returns at most `k` passages and
every returned passage carries a `search_source` tag that is either
"graph_rag" or "traditional". -/
theorem combined_search_at_most_k_tagged
    (traditional_retrieval graph_rag_retrieval : Engine)
    (query : String) (top_k : Nat) (_hk : 1 ≤ top_k) :
    (combined_search traditional_retrieval graph_rag_retrieval query top_k).length ≤ top_k ∧
    ∀ d ∈ combined_search traditional_retrieval graph_rag_retrieval query top_k,
      getKey d.metadata "search_source" = some (.str "graph_rag") ∨
      getKey d.metadata "search_source" = some (.str "traditional") := by
  rw [combined_search_def]
  refine ⟨?_, ?_⟩
  · rw [List.length_take]
    omega
  · intro d hd
    exact mem_combined_sources _ _ _ _ hd

/-- C6 witness at `k = 3` with two healthy single-result engines. -/
theorem combined_search_at_most_k_tagged_witness :
    1 ≤ 3 ∧
    ((combined_search (fun _ _ => .ok [⟨"传统文档", []⟩])
        (fun _ _ => .ok [⟨"图文档", []⟩]) "查询" 3).length ≤ 3 ∧
     ∀ d ∈ combined_search (fun _ _ => .ok [⟨"传统文档", []⟩])
        (fun _ _ => .ok [⟨"图文档", []⟩]) "查询" 3,
       getKey d.metadata "search_source" = some (.str "graph_rag") ∨
       getKey d.metadata "search_source" = some (.str "traditional")) :=
  ⟨by norm_num, combined_search_at_most_k_tagged _ _ _ _ (by norm_num)⟩

/-- C7: when both engines raise, each is recovered per-engine as an empty
contribution and `_combined_search` returns the empty list (structurally, it
never raises: it is a total function in this model). -/
theorem combined_search_empty_when_both_engines_fail (query : String) (top_k : Nat) :
    combined_search (fun _ _ => .error ()) (fun _ _ => .error ()) query top_k = [] := by
  rw [combined_search_def]
  simp [engineResult, mergeAll, mergeTrad]

/-- C8: the spec claims every `route_query` call increments `total_queries`
and exactly one strategy counter, even on the internal fallback path.  The
increment is indeed exactly-once whenever the classification step yields an
analysis (second conjunct), but on a classification failure the call raises
before `_update_route_stats` runs and the statistics are left untouched
(first conjunct) — after N calls one of which hit the fallback path,
`total_queries` is N−1, not N. -/
theorem route_stats_divergence_on_classification_failure :
    (∀ (traditional_retrieval graph_rag_retrieval : Engine)
       (query : String) (top_k : Nat) (stats : RouteStats),
      (route_query (.error ()) traditional_retrieval graph_rag_retrieval
        query top_k stats).2 = stats) ∧
    (∀ (strategy : SearchStrategy) (stats : RouteStats),
      (update_route_stats strategy stats).total_queries = stats.total_queries + 1 ∧
      (update_route_stats strategy stats).traditional_count +
        (update_route_stats strategy stats).graph_rag_count +
        (update_route_stats strategy stats).combined_count =
        stats.traditional_count + stats.graph_rag_count + stats.combined_count + 1) := by
  refine ⟨fun _ _ _ _ _ => rfl, fun s st => ?_⟩
  cases s <;> simp [update_route_stats] <;> omega

/-- C9 counterexample: with a healthy classification reply recommending
GraphRag, a failing graph engine, and a traditional engine returning one
passage, `route_query` returns that passage through the last-resort fallback
WITHOUT the routing metadata: `_post_process_results` is skipped on the
fallback path (lines 211–215 return directly). -/
theorem route_query_fallback_skips_annotation :
    (route_query (.ok ⟨none, none, none, none, some "graph_rag", none, none⟩)
        (fun _ _ => .ok [⟨"目标文档", [("owner", MetaVal.str "caller")]⟩])
        (fun _ _ => .error ()) "查询" 3 init_route_stats).1
      = .ok ([⟨"目标文档", [("owner", MetaVal.str "caller")]⟩],
             ⟨0.5, 0.5, false, 1, .graph_rag, 0.5, "默认分析"⟩) ∧
    getKey [("owner", MetaVal.str "caller")] "route_strategy" = none :=
  ⟨rfl, rfl⟩

/-- C9 amended: on the three direct strategy paths the annotator
`_post_process_results` adds the three routing keys to every passage and
leaves every other metadata key unchanged; the last-resort fallback path
skips it. -/
theorem post_process_adds_routing_metadata (analysis : QueryAnalysis)
    (documents : List Document) (d' : Document)
    (hd : d' ∈ post_process_results documents analysis) :
    getKey d'.metadata "route_strategy"
      = some (.str analysis.recommended_strategy.value) ∧
    getKey d'.metadata "query_complexity" = some (.num analysis.query_complexity) ∧
    getKey d'.metadata "route_confidence" = some (.num analysis.confidence) ∧
    ∃ d, d ∈ documents ∧ ∀ key : String, key ≠ "route_strategy" →
      key ≠ "query_complexity" → key ≠ "route_confidence" →
      getKey d'.metadata key = getKey d.metadata key := by
  rw [post_process_results] at hd
  rcases List.mem_map.mp hd with ⟨d, hdm, hEq⟩
  have hmeta : d'.metadata =
      setKey (setKey (setKey d.metadata
        "route_strategy" (.str analysis.recommended_strategy.value))
        "query_complexity" (.num analysis.query_complexity))
        "route_confidence" (.num analysis.confidence) := by
    rw [← hEq]
  refine ⟨?_, ?_, ?_, d, hdm, ?_⟩
  · rw [hmeta, getKey_setKey_other _ _ _ _ (by decide),
      getKey_setKey_other _ _ _ _ (by decide), getKey_setKey_self]
  · rw [hmeta, getKey_setKey_other _ _ _ _ (by decide), getKey_setKey_self]
  · rw [hmeta, getKey_setKey_self]
  · intro key hk1 hk2 hk3
    rw [hmeta, getKey_setKey_other _ _ _ _ hk3, getKey_setKey_other _ _ _ _ hk2,
      getKey_setKey_other _ _ _ _ hk1]

/-- C9 amended witness: one passage with a caller-supplied key. -/
theorem post_process_adds_routing_metadata_witness :
    (⟨"文档内容", [("owner", MetaVal.str "caller"),
        ("route_strategy", MetaVal.str "hybrid_traditional"),
        ("query_complexity", MetaVal.num 1),
        ("route_confidence", MetaVal.num 1)]⟩ : Document) ∈
      post_process_results [⟨"文档内容", [("owner", MetaVal.str "caller")]⟩]
        ⟨1, 0, false, 1, .hybrid_traditional, 1, "规则"⟩ ∧
    (getKey [("owner", MetaVal.str "caller"),
        ("route_strategy", MetaVal.str "hybrid_traditional"),
        ("query_complexity", MetaVal.num 1),
        ("route_confidence", MetaVal.num 1)] "route_strategy"
      = some (.str SearchStrategy.hybrid_traditional.value) ∧
     getKey [("owner", MetaVal.str "caller"),
        ("route_strategy", MetaVal.str "hybrid_traditional"),
        ("query_complexity", MetaVal.num 1),
        ("route_confidence", MetaVal.num 1)] "query_complexity" = some (.num 1) ∧
     getKey [("owner", MetaVal.str "caller"),
        ("route_strategy", MetaVal.str "hybrid_traditional"),
        ("query_complexity", MetaVal.num 1),
        ("route_confidence", MetaVal.num 1)] "route_confidence" = some (.num 1) ∧
     ∃ d, d ∈ [(⟨"文档内容", [("owner", MetaVal.str "caller")]⟩ : Document)] ∧
       ∀ key : String, key ≠ "route_strategy" → key ≠ "query_complexity" →
         key ≠ "route_confidence" →
         getKey [("owner", MetaVal.str "caller"),
            ("route_strategy", MetaVal.str "hybrid_traditional"),
            ("query_complexity", MetaVal.num 1),
            ("route_confidence", MetaVal.num 1)] key = getKey d.metadata key) := by
  have hmem : (⟨"文档内容", [("owner", MetaVal.str "caller"),
      ("route_strategy", MetaVal.str "hybrid_traditional"),
      ("query_complexity", MetaVal.num 1),
      ("route_confidence", MetaVal.num 1)]⟩ : Document) ∈
      post_process_results [⟨"文档内容", [("owner", MetaVal.str "caller")]⟩]
        ⟨1, 0, false, 1, .hybrid_traditional, 1, "规则"⟩ := by
    show (⟨"文档内容", [("owner", MetaVal.str "caller"),
      ("route_strategy", MetaVal.str "hybrid_traditional"),
      ("query_complexity", MetaVal.num 1),
      ("route_confidence", MetaVal.num 1)]⟩ : Document) ∈
      [(⟨"文档内容", [("owner", MetaVal.str "caller"),
        ("route_strategy", MetaVal.str "hybrid_traditional"),
        ("query_complexity", MetaVal.num 1),
        ("route_confidence", MetaVal.num 1)]⟩ : Document)]
    exact List.mem_singleton.mpr rfl
  exact ⟨hmem, post_process_adds_routing_metadata _ _ _ hmem⟩

/-- C10: the rule-based fallback classifier never recommends the combined
strategy; and when the classification service is unavailable `route_query`
raises before dispatching, so the combined-search path is unreachable. -/
theorem rule_fallback_never_combined :
    (∀ query : String,
      (rule_based_analysis query).recommended_strategy ≠ SearchStrategy.combined) ∧
    (∀ (traditional_retrieval graph_rag_retrieval : Engine)
       (query : String) (top_k : Nat) (stats : RouteStats),
      (route_query (.error ()) traditional_retrieval graph_rag_retrieval
        query top_k stats).1 = .error .attributeError) := by
  constructor
  · intro q
    rw [rba_strategy_def]
    split <;> simp
  · intro _ _ _ _ _
    rfl

end GraphRag


example : GraphRag.strContains "为什么关系" "为什么" = true := by decide
example : GraphRag.strContains "为什么关系" "联系" = false := by decide
example : GraphRag.complexity_keywords.countP
    (fun kw => GraphRag.strContains "为什么关系" kw) = 2 := by decide
example : (GraphRag.rule_based_analysis "为什么关系").recommended_strategy
    = GraphRag.SearchStrategy.hybrid_traditional := by
  have h1 : GraphRag.complexity_keywords.countP
      (fun kw => GraphRag.strContains "为什么关系" kw) = 2 := by decide
  have h2 : GraphRag.relation_keywords.countP
      (fun kw => GraphRag.strContains "为什么关系" kw) = 0 := by decide
  simp only [GraphRag.rule_based_analysis, h1, h2]
  norm_num [GraphRag.complexity_keywords, GraphRag.relation_keywords]
example : (GraphRag.rule_based_analysis "为什么关系").query_complexity = 2 / 7 := by
  have h1 : GraphRag.complexity_keywords.countP
      (fun kw => GraphRag.strContains "为什么关系" kw) = 2 := by decide
  simp only [GraphRag.rule_based_analysis, h1]
  norm_num [GraphRag.complexity_keywords]
